import Mathlib

/-
Verification development for the advanced-rag-system repository.

Shallow embedding of the text-chunking service
(backend/file_service/app/chunking/chunker.py), the embedding service
(backend/file_service/app/embedding/embedder.py), the ingestion pipeline
(backend/file_service/app/api/files.py), the vector integration layer
(backend/file_service/app/core/vector_integration.py) and the RAG service
(backend/chat_service/app/crud/rag.py).

Python strings are modelled as List Char, Python int as Int (arbitrary
precision), Python float scores as rationals, and provider calls as oracle
functions returning Except.  While loops whose progress is in question are
modelled with explicit fuel: the constructor fuelOut means the loop did not
finish within the given fuel, and a result that is fuelOut for every fuel
is a non-terminating loop.
-/

/-- Whitespace test matching the Python regex class for backslash-s and
str.strip / str.split defaults, on the ASCII range. -/
def pyIsSpace (c : Char) : Bool :=
  c = ' ' || c = '\t' || c = '\n' || c = '\x0b' || c = '\x0c' || c = '\r'

/-- One pass of re.sub collapsing every maximal whitespace run to a single
space (the body of BaseChunker._clean_text before strip).  The Bool flag
records whether the previous character was part of a whitespace run. -/
def collapse_ws : Bool → List Char → List Char
  | _, [] => []
  | prevWs, c :: rest =>
    if pyIsSpace c then
      if prevWs then collapse_ws true rest
      else ' ' :: collapse_ws true rest
    else c :: collapse_ws false rest

/-- Python str.strip with no argument: drop whitespace from both ends. -/
def py_strip (l : List Char) : List Char :=
  ((l.dropWhile pyIsSpace).reverse.dropWhile pyIsSpace).reverse

/-- BaseChunker._clean_text: collapse whitespace runs to single spaces, then
strip. -/
def clean_text (l : List Char) : List Char :=
  py_strip (collapse_ws false l)

/-- Chunk record produced by BaseChunker._create_chunk (the metadata
dictionary, which is passed through unchanged, is omitted). -/
structure PyChunk where
  text : List Char
  index : Nat
  start_position : Int
  end_position : Int
deriving DecidableEq, Repr

/-- BaseChunker._create_chunk: the chunk text is stripped on creation. -/
def create_chunk (t : List Char) (i : Nat) (s e : Int) : PyChunk :=
  ⟨py_strip t, i, s, e⟩

/-- Python slice text[a:b] on arbitrary (possibly negative) Int indices. -/
def py_slice (l : List Char) (a b : Int) : List Char :=
  let n : Int := l.length
  let norm : Int → Nat := fun i => if i < 0 then (max 0 (n + i)).toNat else (min i n).toNat
  (l.take (norm b)).drop (norm a)

/-- Result of running a piece of Python code: a value, a raised exception,
or fuel exhaustion of a while loop (fuelOut for every fuel means the loop
never terminates). -/
inductive PyResult (α : Type) where
  | ok (val : α)
  | exn (msg : String)
  | fuelOut
deriving DecidableEq, Repr

/-- The while loop of FixedSizeChunker.chunk_text.  State: fuel, start
(Python int, may go negative), chunk_index, accumulated chunks.  Each
iteration slices text[start:end], appends a chunk, sets start to
end - overlap and breaks only when the new start is at or beyond end. -/
def fixed_loop (chunkSize overlap : Int) (text : List Char) :
    Nat → Int → Nat → List PyChunk → PyResult (List PyChunk)
  | 0, _, _, _ => .fuelOut
  | fuel+1, start, idx, acc =>
    if start < (text.length : Int) then
      let e := min (start + chunkSize) (text.length : Int)
      let ct := py_slice text start e
      let acc' := acc ++ [create_chunk ct idx start e]
      let start' := e - overlap
      if start' ≥ e then .ok acc'
      else fixed_loop chunkSize overlap text fuel start' (idx+1) acc'
    else .ok acc

/-- FixedSizeChunker.chunk_text: clean the text, return it as a single chunk
when it fits in chunk_size, otherwise run the sliding-window loop. -/
def fixed_chunk_text (chunkSize overlap : Int) (fuel : Nat) (raw : List Char) :
    PyResult (List PyChunk) :=
  let text := clean_text raw
  if (text.length : Int) ≤ chunkSize then
    .ok [create_chunk text 0 0 text.length]
  else
    fixed_loop chunkSize overlap text fuel 0 0 []

/-- Python membership test sep in text for strings. -/
def contains_seq (sep text : List Char) : Bool :=
  (List.range (text.length + 1)).any (fun i => (text.drop i).take sep.length == sep)

/-- Python str.split with a non-empty separator, fuelled scanner: at each
position either the separator is a leading pattern (cut here) or one
character is moved to the current piece. -/
def py_split_go (sep : List Char) : Nat → List Char → List Char → List (List Char)
  | 0, cur, rest => [cur.reverse ++ rest]
  | fuel+1, cur, text =>
    if sep ≠ [] && text.take sep.length == sep then
      cur.reverse :: py_split_go sep fuel [] (text.drop sep.length)
    else
      match text with
      | [] => [cur.reverse]
      | c :: rest => py_split_go sep fuel (c :: cur) rest

/-- Python str.split with a non-empty separator. -/
def py_split (sep text : List Char) : List (List Char) :=
  py_split_go sep (text.length + 1) [] text

/-- The accumulation loop of RecursiveChunker._split_by_separator: greedily
pack parts (with the separator re-appended to all but the last) while the
current piece stays within chunk_size; flushed pieces keep overlap by moving
the running start back by overlap. -/
def split_by_sep_go (chunkSize overlap : Int) (sep : List Char) :
    List (List Char) → List Char → Int → List PyChunk → List PyChunk
  | [], cur, curStart, acc =>
      if py_strip cur ≠ [] then
        acc ++ [create_chunk cur acc.length curStart (curStart + cur.length)]
      else acc
  | p :: rest, cur, curStart, acc =>
      let pws := if rest = [] then p else p ++ sep
      if (cur.length : Int) + pws.length ≤ chunkSize then
        split_by_sep_go chunkSize overlap sep rest (cur ++ pws) curStart acc
      else
        let acc' :=
          if py_strip cur ≠ [] then
            acc ++ [create_chunk cur acc.length curStart (curStart + cur.length)]
          else acc
        split_by_sep_go chunkSize overlap sep rest pws (curStart + cur.length - overlap) acc'

/-- RecursiveChunker._split_by_separator. -/
def split_by_separator (chunkSize overlap : Int) (text sep : List Char)
    (startOffset : Int) : List PyChunk :=
  split_by_sep_go chunkSize overlap sep (py_split sep text) [] startOffset []

/-- The while loop of RecursiveChunker._fallback_split, same shape as the
fixed-size loop but with chunk indices taken from the accumulator length and
positions shifted by start_offset. -/
def fallback_loop (chunkSize overlap startOffset : Int) (text : List Char) :
    Nat → Int → List PyChunk → PyResult (List PyChunk)
  | 0, _, _ => .fuelOut
  | fuel+1, start, acc =>
    if start < (text.length : Int) then
      let e := min (start + chunkSize) (text.length : Int)
      let ct := py_slice text start e
      let acc' := acc ++ [create_chunk ct acc.length (startOffset + start) (startOffset + e)]
      let start' := e - overlap
      if start' ≥ e then .ok acc'
      else fallback_loop chunkSize overlap startOffset text fuel start' acc'
    else .ok acc

/-- Separator preference list of RecursiveChunker. -/
def separators : List (List Char) :=
  ["\n\n", "\n", ". ", "! ", "? ", "; ", ", ", " ", ""].map String.toList

/-- The separator loop of RecursiveChunker._recursive_split: take the first
separator occurring in the text whose split yields chunks; the empty
separator, which Python treats as always contained, makes str.split raise
ValueError (empty separator); when no separator applies fall back to
fixed-size splitting. -/
def try_separators (chunkSize overlap : Int) (fuel : Nat) (text : List Char)
    (startOffset : Int) : List (List Char) → PyResult (List PyChunk)
  | [] => fallback_loop chunkSize overlap startOffset text fuel 0 []
  | sep :: rest =>
    if contains_seq sep text then
      if sep = [] then .exn "empty separator"
      else
        let chunks := split_by_separator chunkSize overlap text sep startOffset
        if chunks ≠ [] then .ok chunks
        else try_separators chunkSize overlap fuel text startOffset rest
    else try_separators chunkSize overlap fuel text startOffset rest

/-- RecursiveChunker._recursive_split. -/
def recursive_split (chunkSize overlap : Int) (fuel : Nat) (text : List Char)
    (startOffset : Int) : PyResult (List PyChunk) :=
  if (text.length : Int) ≤ chunkSize then
    .ok [create_chunk text 0 startOffset (startOffset + text.length)]
  else
    try_separators chunkSize overlap fuel text startOffset separators

/-- RecursiveChunker.chunk_text. -/
def recursive_chunk_text (chunkSize overlap : Int) (fuel : Nat) (raw : List Char) :
    PyResult (List PyChunk) :=
  recursive_split chunkSize overlap fuel (clean_text raw) 0

/-- SemanticChunker.chunk_text currently delegates to a RecursiveChunker
with the same chunk_size and overlap. -/
def semantic_chunk_text (chunkSize overlap : Int) (fuel : Nat) (raw : List Char) :
    PyResult (List PyChunk) :=
  recursive_chunk_text chunkSize overlap fuel raw

/-- Index of the last newline in a character list, used to resolve the
greedy match of the paragraph separator regex (a newline, then a greedy
whitespace star that must still leave a final newline). -/
def last_nl_idx (l : List Char) : Option Nat :=
  ((l.enum.filter (fun p => p.2 == '\n')).map (fun p => p.1)).getLast?

/-- Scanner for re.split on the paragraph separator (newline, whitespace
star, newline).  At a newline, the greedy whitespace star extends to the
last newline of the maximal whitespace run that follows; without a second
newline in that run there is no separator match at this position. -/
def para_split_go : Nat → List Char → List Char → List (List Char)
  | 0, cur, rest => [cur.reverse ++ rest]
  | _+1, cur, [] => [cur.reverse]
  | fuel+1, cur, c :: rest =>
    if c = '\n' then
      match last_nl_idx (rest.takeWhile pyIsSpace) with
      | some i => cur.reverse :: para_split_go fuel [] (rest.drop (i+1))
      | none => para_split_go fuel (c :: cur) rest
    else para_split_go fuel (c :: cur) rest

/-- Paragraph split of ParagraphChunker.chunk_text. -/
def para_split (l : List Char) : List (List Char) :=
  para_split_go (l.length + 1) [] l

/-- The paragraph accumulation loop of ParagraphChunker.chunk_text: strip
each paragraph, skip empty ones, flush the current piece when adding the
paragraph plus a two-character joiner would exceed chunk_size, otherwise
join with a double newline. -/
def paragraph_go (chunkSize : Int) :
    List (List Char) → List Char → Int → List PyChunk → List PyChunk
  | [], cur, curStart, acc =>
      if py_strip cur ≠ [] then
        acc ++ [create_chunk cur acc.length curStart (curStart + cur.length)]
      else acc
  | p0 :: rest, cur, curStart, acc =>
      let p := py_strip p0
      if p = [] then paragraph_go chunkSize rest cur curStart acc
      else if (cur.length : Int) + p.length + 2 > chunkSize && cur ≠ [] then
        let acc' := acc ++ [create_chunk cur acc.length curStart (curStart + cur.length)]
        paragraph_go chunkSize rest p (curStart + cur.length) acc'
      else
        let cur' := if cur ≠ [] then cur ++ ('\n' :: '\n' :: p) else p
        paragraph_go chunkSize rest cur' curStart acc

/-- ParagraphChunker.chunk_text (the overlap setting is unused by this
strategy). -/
def paragraph_chunk_text (chunkSize _overlap : Int) (raw : List Char) : List PyChunk :=
  let text := clean_text raw
  paragraph_go chunkSize (para_split text) [] 0 []

/-- Retrieved chunk record of the chat service
(chat_service/app/models/rag.py); UUID fields are modelled as Nat keys and
the float similarity score as a rational. -/
structure RetrievedChunk where
  chunk_id : Nat
  document_id : Nat
  collection_id : Nat
  content : String
  similarity_score : ℚ
  rank : Nat
deriving DecidableEq, Repr

/-- Append a chunk to the group of its collection, creating the group at
the end on first sight (Python dict insertion-order semantics). -/
def add_to_group (c : RetrievedChunk) :
    List (Nat × List RetrievedChunk) → List (Nat × List RetrievedChunk)
  | [] => [(c.collection_id, [c])]
  | (k, g) :: rest =>
      if k = c.collection_id then (k, g ++ [c]) :: rest
      else (k, g) :: add_to_group c rest

/-- The grouping loop of RAGService.merge_contexts: collection_chunks keyed
by collection id in first-appearance order. -/
def group_by_collection (chunks : List RetrievedChunk) : List (Nat × List RetrievedChunk) :=
  chunks.foldl (fun acc c => add_to_group c acc) []

/-- Stable insertion step for descending sort by a rational key, matching
Python sorted with reverse, where equal keys keep their original order. -/
def insert_desc {α : Type} (f : α → ℚ) (x : α) : List α → List α
  | [] => [x]
  | y :: ys => if f y ≤ f x then x :: y :: ys else y :: insert_desc f x ys

/-- Stable descending sort by a rational key (Python sorted with key and
reverse set). -/
def sort_desc {α : Type} (f : α → ℚ) : List α → List α
  | [] => []
  | x :: xs => insert_desc f x (sort_desc f xs)

/-- One update of the rrf_scores dictionary: the first sight of a chunk id
inserts the chunk with score zero at the end, then the contribution is added
to the stored score. -/
def bump_score (c : RetrievedChunk) (d : ℚ) :
    List (Nat × RetrievedChunk × ℚ) → List (Nat × RetrievedChunk × ℚ)
  | [] => [(c.chunk_id, c, d)]
  | (k, c0, s) :: rest =>
      if k = c.chunk_id then (k, c0, s + d) :: rest
      else (k, c0, s) :: bump_score c d rest

/-- Score one collection group in RAGService.merge_contexts: sort the group
by similarity score descending, enumerate ranks from one, and add
1 / (k + rank) to the dictionary entry of each chunk id. -/
def score_group (k : ℚ) (g : List RetrievedChunk)
    (dict : List (Nat × RetrievedChunk × ℚ)) : List (Nat × RetrievedChunk × ℚ) :=
  ((sort_desc (fun c => c.similarity_score) g).enum).foldl
    (fun d p => bump_score p.2 (1 / (k + (p.1 : ℚ) + 1)) d) dict

/-- The rrf_scores dictionary of RAGService.merge_contexts. -/
def rrf_scores (k : ℚ) (chunks : List RetrievedChunk) : List (Nat × RetrievedChunk × ℚ) :=
  (group_by_collection chunks).foldl (fun d p => score_group k p.2 d) []

/-- Token estimate used by merge_contexts: length of content with integer
division by four. -/
def estimate_tokens (c : RetrievedChunk) : Int :=
  ((c.content.length / 4 : Nat) : Int)

/-- The greedy selection loop of merge_contexts: accept chunks in order
while the running total stays within max_tokens and stop at the first chunk
that would exceed it. -/
def select_go (maxTokens : Int) :
    List RetrievedChunk → Int → List RetrievedChunk → (List RetrievedChunk × Int)
  | [], tot, acc => (acc, tot)
  | c :: rest, tot, acc =>
      if tot + estimate_tokens c ≤ maxTokens then
        select_go maxTokens rest (tot + estimate_tokens c) (acc ++ [c])
      else (acc, tot)

/-- Result record of merge_contexts (chat_service/app/models/rag.py); the
merge_metadata dictionary is omitted. -/
structure ContextMergeResult where
  merged_context : String
  selected_chunks : List RetrievedChunk
  total_tokens : Int
  merge_strategy : String
deriving DecidableEq, Repr

/-- Merged context string of merge_contexts: numbered source tags joined by
blank lines. -/
def build_context (sel : List RetrievedChunk) : String :=
  String.intercalate "\n\n"
    (sel.enum.map (fun p => "[Source " ++ toString (p.1 + 1) ++ "] " ++ p.2.content))

/-- The chunk list ordered by descending fused score, as iterated by the
selection loop of merge_contexts (dictionary values in key insertion order,
stable-sorted by score descending). -/
def ranked_chunks (k : ℚ) (chunks : List RetrievedChunk) : List RetrievedChunk :=
  (sort_desc (fun e : Nat × RetrievedChunk × ℚ => e.2.2) (rrf_scores k chunks)).map
    (fun e => e.2.1)

/-- RAGService.merge_contexts: reciprocal-rank fusion followed by greedy
token-budgeted selection (the query argument is unused by the body). -/
def merge_contexts (k : ℚ) (chunks : List RetrievedChunk) (_query : String)
    (maxTokens : Int) : ContextMergeResult :=
  let ranked := ranked_chunks k chunks
  let sel := select_go maxTokens ranked 0 []
  ⟨build_context sel.1, sel.1, sel.2, "enhanced_rrf"⟩

/-- Default of the rrf_k setting (backend/common/config.py). -/
def rrf_k : ℚ := 60

/-- Events yielded by RAGService.process_streaming_rag_request. -/
inductive StreamEvent where
  | status (s : String)
  | source (chunkId : Nat)
  | content (s : String)
  | metadata
  | done
  | error (msg : String)
deriving DecidableEq, Repr

/-- Terminal events of the stream: done and error. -/
def is_terminal : StreamEvent → Bool
  | .done => true
  | .error _ => true
  | _ => false

/-- RAGService.process_streaming_rag_request as a trace function.  The
awaited embedding and search calls may raise (modelled as Except); the
completion stream yields its content increments and may then fail; any
raised exception reaches the single outer handler, which yields one error
event and ends the generator. -/
def process_streaming_rag_request (k : ℚ) (maxTokens : Int) (query : String)
    (embedOutcome : Except String Unit)
    (searchOutcome : Except String (List RetrievedChunk))
    (llmChunks : List String) (llmFailure : Option String) : List StreamEvent :=
  match embedOutcome with
  | .error e => [.status "generating_embedding", .error e]
  | .ok _ =>
    match searchOutcome with
    | .error e => [.status "generating_embedding", .status "searching_vectors", .error e]
    | .ok chunks =>
      let merge := merge_contexts k chunks query maxTokens
      [.status "generating_embedding", .status "searching_vectors",
       .status "merging_context"]
        ++ merge.selected_chunks.map (fun c => .source c.chunk_id)
        ++ [.status "generating_response"]
        ++ llmChunks.map .content
        ++ (match llmFailure with
            | some e => [.error e]
            | none => [.metadata, .done])

/-- Qdrant search hit as consumed by RAGService.vector_search. -/
structure QdrantPoint where
  chunk_id : Nat
  document_id : Nat
  content : String
  score : ℚ
deriving DecidableEq, Repr

/-- RAGService.vector_search: the per-collection search loop sits inside a
single try block, so the first failing collection search raises out of the
whole call; successful collections contribute their hits in order, ranked
from one within each collection. -/
def vector_search (searchFn : Nat → Except String (List QdrantPoint))
    (collection_ids : List Nat) : Except String (List RetrievedChunk) := do
  let lists ← collection_ids.mapM (fun cid => do
    let rs ← searchFn cid
    pure (rs.enum.map (fun p =>
      ({ chunk_id := p.2.chunk_id, document_id := p.2.document_id,
         collection_id := cid, content := p.2.content,
         similarity_score := p.2.score, rank := p.1 + 1 } : RetrievedChunk))))
  pure lists.flatten

/-- Search hit of the file service vector layer
(file_service/app/core/vector_integration.py). -/
structure VectorSearchResult where
  chunk_id : Nat
  content : String
  score : ℚ
deriving DecidableEq, Repr

/-- Decidable success test on Except. -/
def except_ok {ε α : Type} : Except ε α → Bool
  | .ok _ => true
  | .error _ => false

/-- The per-collection loop of FileVectorService.search_across_collections:
each collection search is tried on its own; a failure is logged and skipped
with continue, a success extends the accumulated results. -/
def gather_results (searchFn : Nat → Except String (List VectorSearchResult)) :
    List Nat → List VectorSearchResult → List VectorSearchResult
  | [], acc => acc
  | cid :: rest, acc =>
      match searchFn cid with
      | .ok rs => gather_results searchFn rest (acc ++ rs)
      | .error _ => gather_results searchFn rest acc

/-- FileVectorService.search_across_collections: gather per-collection
results with failures skipped, sort by score descending, truncate to the
limit. -/
def search_across_collections (searchFn : Nat → Except String (List VectorSearchResult))
    (ids : List Nat) (limit : Nat) : List VectorSearchResult :=
  (sort_desc (fun r => r.score) (gather_results searchFn ids [])).take limit

/-- Split into whitespace-separated words, Python str.split with no
argument: runs of whitespace separate words, empties are dropped. -/
def split_ws_words : List Char → List Char → List (List Char)
  | cur, [] => if cur = [] then [] else [cur.reverse]
  | cur, c :: rest =>
      if pyIsSpace c then
        if cur = [] then split_ws_words [] rest
        else cur.reverse :: split_ws_words [] rest
      else split_ws_words (c :: cur) rest

/-- BaseEmbedder._validate_text: reject empty or whitespace-only text,
normalize whitespace by splitting into words and joining with single
spaces, truncate to the conservative 8000-character limit. -/
def validate_text (t : List Char) : Except String (List Char) :=
  if py_strip t = [] then .error "Text cannot be empty"
  else
    let normalized := List.intercalate [' '] (split_ws_words [] t)
    .ok (normalized.take 8000)

/-- OpenAIEmbedder.generate_embedding over a provider oracle: validate (a
validation failure raises out before any provider call), then call the
provider and wrap any provider failure in a RuntimeError message. -/
def generate_embedding (oracle : List Char → Except String (List ℚ))
    (t : List Char) : Except String (List ℚ) :=
  match validate_text t with
  | .error e => .error e
  | .ok v =>
    match oracle v with
    | .ok emb => .ok emb
    | .error e => .error ("OpenAI embedding generation failed: " ++ e)

/-- OpenAIEmbedder.generate_embeddings (batch): empty input short-circuits,
all texts are validated first (the first invalid text raises), then one
batch provider call is made and a failure is wrapped. -/
def generate_embeddings (batchOracle : List (List Char) → Except String (List (List ℚ)))
    (texts : List (List Char)) : Except String (List (List ℚ)) :=
  if texts = [] then .ok []
  else
    match texts.mapM validate_text with
    | .error e => .error e
    | .ok vs =>
      match batchOracle vs with
      | .ok embs => .ok embs
      | .error e => .error ("OpenAI batch embedding generation failed: " ++ e)

/-- Result record of EmbeddingService.embed_text (the model name and
dimension fields are the constants of the default configured model). -/
structure EmbedResult where
  embedding : Option (List ℚ)
  model : String
  text_length : Nat
  success : Bool
  error : Option String
deriving DecidableEq, Repr

/-- EmbeddingService.embed_text: every exception of the body is caught by
the handler, which returns a record with success false, no embedding and
the exception text as error. -/
def embed_text (oracle : List Char → Except String (List ℚ)) (t : List Char) : EmbedResult :=
  match generate_embedding oracle t with
  | .ok emb => ⟨some emb, "text-embedding-3-small", t.length, true, none⟩
  | .error e => ⟨none, "text-embedding-3-small", t.length, false, some e⟩

/-- Chunk enriched by EmbeddingService.embed_chunks: the chunk text with the
per-item embedding outcome (the pass-through chunk fields and the constant
model fields are omitted). -/
structure EnrichedChunk where
  text : List Char
  embedding : Option (List ℚ)
  success : Bool
  error : Option String
deriving DecidableEq, Repr

/-- EmbeddingService._embed_chunks_individually: embed each chunk text on
its own; a per-item failure is recorded on that item only (its batch_error
argument is unused by the Python body and dropped here). -/
def embed_chunks_individually (oracle : List Char → Except String (List ℚ))
    (texts : List (List Char)) : List EnrichedChunk :=
  texts.map (fun t =>
    match generate_embedding oracle t with
    | .ok emb => ⟨t, some emb, true, none⟩
    | .error e => ⟨t, none, false, some ("Individual embedding failed: " ++ e)⟩)

/-- EmbeddingService.embed_chunks: try the batch call; any exception inside
the try block, including an IndexError when the batch returns fewer
embeddings than chunks, falls back to individual embedding. -/
def embed_chunks (oracle : List Char → Except String (List ℚ))
    (batchOracle : List (List Char) → Except String (List (List ℚ)))
    (texts : List (List Char)) : List EnrichedChunk :=
  if texts = [] then []
  else
    match generate_embeddings batchOracle texts with
    | .ok embs =>
        if texts.length ≤ embs.length then
          (texts.zip embs).map (fun p => ⟨p.1, some p.2, true, none⟩)
        else embed_chunks_individually oracle texts
    | .error _ => embed_chunks_individually oracle texts

/-- File lifecycle states (file_service/app/models/file.py). -/
inductive FileStatus where
  | uploaded
  | processing
  | processed
  | failed
deriving DecidableEq, Repr

/-- process_file_pipeline (file_service/app/api/files.py) as a function
from step outcomes to the final recorded file status.  A missing file
record returns with no status written.  An unsuccessful extraction writes
failed and returns.  The chunking step and the relational persistence steps
run inside the outer try, whose handler writes failed.  The vector-storage
step has its own inner handler that only logs, after which the status is
written as processed whatever the vector outcome was. -/
def process_file_pipeline (fileFound : Bool)
    (extraction : Except String String)
    (chunkingStep : Except String Unit)
    (dbStep : Except String Unit)
    (vectorStore : Except String Unit) : Option FileStatus :=
  if fileFound = false then none
  else
    match extraction with
    | .error _ => some .failed
    | .ok _ =>
      match chunkingStep with
      | .error _ => some .failed
      | .ok _ =>
        match dbStep with
        | .error _ => some .failed
        | .ok _ =>
          match vectorStore with
          | .ok _ => some .processed
          | .error _ => some .processed

/-- Score looked up by chunk id in the rrf_scores dictionary, zero when the
id is absent. -/
def lookup_score (id : Nat) : List (Nat × RetrievedChunk × ℚ) → ℚ
  | [] => 0
  | (k, _, s) :: rest => if k = id then s else lookup_score id rest

/-- Sum of the reciprocal-rank contributions 1 / (k + rank) of the entries
of a rank-enumerated list (zero-based enumeration, rank is index plus one)
whose chunk id matches. -/
def contrib_sum (k : ℚ) (id : Nat) : List (Nat × RetrievedChunk) → ℚ
  | [] => 0
  | p :: rest =>
      (if p.2.chunk_id = id then 1 / (k + (p.1 : ℚ) + 1) else 0) + contrib_sum k id rest

/-- Reciprocal-rank contribution of one collection group to a chunk id:
ranks are assigned from one by descending similarity score within the
group. -/
def rank_contributions (k : ℚ) (id : Nat) (g : List RetrievedChunk) : ℚ :=
  contrib_sum k id ((sort_desc (fun c => c.similarity_score) g).enum)

/-- Concrete fusion scenario: chunk id 10 ranks 1st in collection 1 and 3rd
in collection 2, chunk id 20 ranks 1st in collection 2 only. -/
def c2_demo : List RetrievedChunk :=
  [⟨10, 0, 1, "x", 9/10, 1⟩, ⟨20, 0, 2, "z", 9/10, 1⟩,
   ⟨30, 0, 2, "w", 7/10, 2⟩, ⟨10, 0, 2, "x", 1/2, 3⟩]

/-- Concrete two-collection search where collection 1 errors and collection
2 has a hit. -/
def c7_fn : Nat → Except String (List QdrantPoint) :=
  fun i => if i = 1 then .error "connection refused" else .ok [⟨7, 7, "doc", 1⟩]

/-- The paragraph scenario input of the specification. -/
def c9_input : String :=
  "Paragraph one.\n\nParagraph two is longer and should still fit.\n\nParagraph three."

/-- The paragraph scenario input after whitespace normalization. -/
def c9_normalized : String :=
  "Paragraph one. Paragraph two is longer and should still fit. Paragraph three."

/-- Deterministic single-text provider oracle used as witness input. -/
def demo_oracle : List Char → Except String (List ℚ) :=
  fun t => .ok [(t.length : ℚ)]

/-- Batch provider oracle that always fails, used as witness input. -/
def demo_batch : List (List Char) → Except String (List (List ℚ)) :=
  fun _ => .error "service unavailable"

/-- Helper: collapsing inside a whitespace run of an all-whitespace list
yields nothing. -/
theorem collapse_ws_true_all_space :
    ∀ l : List Char, (∀ c ∈ l, pyIsSpace c = true) → collapse_ws true l = [] := by
  intro l
  induction l with
  | nil => intro _; rfl
  | cons c rest ih =>
    intro h
    have hc : pyIsSpace c = true := h c (by simp)
    simp only [collapse_ws, hc, if_true]
    exact ih (fun x hx => h x (by simp [hx]))

/-- Helper: cleaning an all-whitespace text yields the empty text. -/
theorem clean_text_all_space :
    ∀ l : List Char, (∀ c ∈ l, pyIsSpace c = true) → clean_text l = [] := by
  intro l h
  cases l with
  | nil => rfl
  | cons c rest =>
    have hc : pyIsSpace c = true := h c (by simp)
    have h2 : collapse_ws false (c :: rest) = [' '] := by
      simp only [collapse_ws, hc, if_true]
      simp [collapse_ws_true_all_space rest (fun x hx => h x (by simp [hx]))]
    show py_strip (collapse_ws false (c :: rest)) = []
    rw [h2]
    decide

/-- Helper step: on the witness text ab with chunk_size one and overlap
one, each loop iteration leaves start at zero and only consumes fuel. -/
theorem fixed_loop_step_ab (n : Nat) (idx : Nat) (acc : List PyChunk) :
    fixed_loop 1 1 ("ab".toList) (n+1) 0 idx acc
      = fixed_loop 1 1 ("ab".toList) n 0 (idx+1) (acc ++ [⟨['a'], idx, 0, 1⟩]) := by
  rfl

/-- Helper: the fixed-size loop returns fuelOut for every fuel on the
witness state, so the Python loop never terminates there. -/
theorem fixed_loop_stuck :
    ∀ (fuel : Nat) (idx : Nat) (acc : List PyChunk),
      fixed_loop 1 1 ("ab".toList) fuel 0 idx acc = .fuelOut := by
  intro fuel
  induction fuel with
  | zero => intro idx acc; rfl
  | succ n ih =>
    intro idx acc
    rw [fixed_loop_step_ab n idx acc]
    exact ih _ _

/-- C4: the claim states that fixed-size chunking terminates for every text,
chunk_size and overlap, in particular when overlap is at least chunk_size.
The code is wrong: the guard start greater or equal end fires only when
overlap is not positive, so with chunk_size one and overlap one on the text
ab the loop repeats the same window for ever; the result is fuel exhaustion
for every fuel, that is, non-termination. -/
theorem fixed_chunker_diverges :
    ∀ fuel : Nat, fixed_chunk_text 1 1 fuel ("ab".toList) = .fuelOut := by
  intro fuel
  have h : fixed_chunk_text 1 1 fuel ("ab".toList)
      = fixed_loop 1 1 ("ab".toList) fuel 0 0 [] := by rfl
  rw [h]
  exact fixed_loop_stuck fuel 0 []

/-- C8 counterexample: chunking the empty document with the fixed strategy
returns one chunk with empty text, not the empty chunk list the claim
states. -/
theorem fixed_chunker_empty_input_counterexample :
    fixed_chunk_text 1000 100 0 ("".toList) ≠ .ok []
      ∧ fixed_chunk_text 1000 100 0 ("".toList) = .ok [⟨[], 0, 0, 0⟩] := by
  decide

/-- C8 amended: on an empty or whitespace-only document the paragraph
strategy returns no chunks, while the fixed, recursive and semantic
strategies each return exactly one chunk whose text is empty. -/
theorem chunking_empty_input_amended :
    ∀ (cs ov : Int) (fuel : Nat) (raw : List Char), 0 < cs →
      (∀ c ∈ raw, pyIsSpace c = true) →
      paragraph_chunk_text cs ov raw = [] ∧
      fixed_chunk_text cs ov fuel raw = .ok [⟨[], 0, 0, 0⟩] ∧
      recursive_chunk_text cs ov fuel raw = .ok [⟨[], 0, 0, 0⟩] ∧
      semantic_chunk_text cs ov fuel raw = .ok [⟨[], 0, 0, 0⟩] := by
  intro cs ov fuel raw hcs hws
  have hct := clean_text_all_space raw hws
  have h0 : (0 : Int) ≤ cs := le_of_lt hcs
  refine ⟨?_, ?_, ?_, ?_⟩
  · simp only [paragraph_chunk_text, hct]
    rfl
  · simp only [fixed_chunk_text, hct, List.length_nil, Int.natCast_zero, h0, if_true]
    rfl
  · simp only [recursive_chunk_text, recursive_split, hct, List.length_nil,
      Int.natCast_zero, h0, if_true]
    rfl
  · simp only [semantic_chunk_text, recursive_chunk_text, recursive_split, hct,
      List.length_nil, Int.natCast_zero, h0, if_true]
    rfl

/-- C8 amended witness: concrete whitespace-only input. -/
theorem chunking_empty_input_amended_witness :
    paragraph_chunk_text 5 7 (" \n".toList) = [] ∧
    fixed_chunk_text 5 7 3 (" \n".toList) = .ok [⟨[], 0, 0, 0⟩] ∧
    recursive_chunk_text 5 7 3 (" \n".toList) = .ok [⟨[], 0, 0, 0⟩] ∧
    semantic_chunk_text 5 7 3 (" \n".toList) = .ok [⟨[], 0, 0, 0⟩] :=
  chunking_empty_input_amended 5 7 3 (" \n".toList) (by norm_num) (by decide)

/-- C9: the claim and the specification scenario state that the paragraph
strategy on the three-paragraph input with chunk_size 80 produces exactly
two chunks.  The code is wrong: clean_text collapses the blank-line
separators to single spaces before the paragraph split, so the split finds
no boundary and the whole normalized 77-character text comes back as one
single chunk. -/
theorem paragraph_scenario_single_chunk :
    paragraph_chunk_text 80 100 (c9_input.toList)
      = [⟨c9_normalized.toList, 0, 0, 77⟩] ∧
    (paragraph_chunk_text 80 100 (c9_input.toList)).length ≠ 2 := by
  decide

/-- Helper: the greedy selection loop returns a prefix of its input whose
token sum it reports, and the reported total never exceeds the budget when
the starting total does not. -/
theorem select_go_spec (maxT : Int) :
    ∀ (l : List RetrievedChunk) (tot : Int) (acc : List RetrievedChunk), tot ≤ maxT →
      ∃ n, select_go maxT l tot acc
          = (acc ++ l.take n, tot + ((l.take n).map estimate_tokens).sum)
        ∧ tot + ((l.take n).map estimate_tokens).sum ≤ maxT := by
  intro l
  induction l with
  | nil =>
    intro tot acc h
    exact ⟨0, by simp [select_go], by simpa using h⟩
  | cons c rest ih =>
    intro tot acc h
    by_cases hc : tot + estimate_tokens c ≤ maxT
    · obtain ⟨n, h1, h2⟩ := ih (tot + estimate_tokens c) (acc ++ [c]) hc
      refine ⟨n + 1, ?_, ?_⟩
      · simp only [select_go, if_pos hc, h1, List.take_succ_cons, List.map_cons,
          List.sum_cons, Prod.mk.injEq]
        constructor
        · simp
        · ring
      · simpa [List.take_succ_cons, add_assoc] using h2
    · exact ⟨0, by simp [select_go, if_neg hc], by simpa using h⟩

/-- C1 amended: for every chunk list, query and non-negative token budget,
merge_contexts reports a total within the budget, the total is the sum of
the per-chunk estimates (content length with integer division by four), and
the selected chunks are a prefix of the fused-score-descending ranking. -/
theorem merge_contexts_token_budget (k : ℚ) (chunks : List RetrievedChunk)
    (query : String) (maxT : Int) (h : 0 ≤ maxT) :
    (merge_contexts k chunks query maxT).total_tokens ≤ maxT ∧
    (merge_contexts k chunks query maxT).total_tokens
      = (((merge_contexts k chunks query maxT).selected_chunks).map estimate_tokens).sum ∧
    ∃ n, (merge_contexts k chunks query maxT).selected_chunks
      = (ranked_chunks k chunks).take n := by
  obtain ⟨n, h1, h2⟩ := select_go_spec maxT (ranked_chunks k chunks) 0 [] h
  have hm : merge_contexts k chunks query maxT
      = ⟨build_context (select_go maxT (ranked_chunks k chunks) 0 []).1,
         (select_go maxT (ranked_chunks k chunks) 0 []).1,
         (select_go maxT (ranked_chunks k chunks) 0 []).2, "enhanced_rrf"⟩ := rfl
  rw [hm, h1]
  refine ⟨by simpa using h2, by simp, ⟨n, by simp⟩⟩

/-- C1 amended witness at a concrete invocation. -/
theorem merge_contexts_token_budget_witness :
    (merge_contexts rrf_k [] "" 4000).total_tokens ≤ 4000 ∧
    (merge_contexts rrf_k [] "" 4000).total_tokens
      = (((merge_contexts rrf_k [] "" 4000).selected_chunks).map estimate_tokens).sum ∧
    ∃ n, (merge_contexts rrf_k [] "" 4000).selected_chunks
      = (ranked_chunks rrf_k []).take n :=
  merge_contexts_token_budget rrf_k [] "" 4000 (by norm_num)

/-- C1 counterexample: the claim quantifies over any token budget, but with
a negative budget the selection loop selects nothing and reports a total of
zero, which exceeds the budget. -/
theorem merge_contexts_negative_budget :
    ¬ (merge_contexts rrf_k [] "" (-1)).total_tokens ≤ (-1 : Int) := by
  decide

/-- Helper: one dictionary update adds the contribution exactly to the
matching chunk id. -/
theorem lookup_bump (id : Nat) (c : RetrievedChunk) (d : ℚ) :
    ∀ dict, lookup_score id (bump_score c d dict)
      = lookup_score id dict + (if c.chunk_id = id then d else 0) := by
  intro dict
  induction dict with
  | nil =>
    by_cases h : c.chunk_id = id <;> simp [bump_score, lookup_score, h]
  | cons e rest ih =>
    obtain ⟨k0, c0, s0⟩ := e
    simp only [bump_score]
    by_cases hk : k0 = c.chunk_id
    · rw [if_pos hk]
      simp only [lookup_score]
      by_cases h2 : k0 = id
      · rw [if_pos h2, if_pos h2, if_pos (hk.symm.trans h2)]
      · have hne : ¬ c.chunk_id = id := fun hc => h2 (hk.trans hc)
        rw [if_neg h2, if_neg h2, if_neg hne, add_zero]
    · rw [if_neg hk]
      simp only [lookup_score]
      by_cases h2 : k0 = id
      · have hne : ¬ c.chunk_id = id := fun hc => hk (h2.trans hc.symm)
        rw [if_pos h2, if_pos h2, if_neg hne, add_zero]
      · rw [if_neg h2, if_neg h2, ih]

/-- Helper: folding the rank-enumerated entries of one group over the
dictionary adds exactly the matching contribution sum. -/
theorem lookup_fold (k : ℚ) (id : Nat) :
    ∀ (l : List (Nat × RetrievedChunk)) (dict : List (Nat × RetrievedChunk × ℚ)),
      lookup_score id
          (l.foldl (fun d p => bump_score p.2 (1 / (k + (p.1 : ℚ) + 1)) d) dict)
        = lookup_score id dict + contrib_sum k id l := by
  intro l
  induction l with
  | nil => intro dict; simp [contrib_sum]
  | cons p rest ih =>
    intro dict
    simp only [List.foldl_cons, contrib_sum]
    rw [ih, lookup_bump]
    ring

/-- Helper: scoring one collection group adds its rank contributions. -/
theorem lookup_score_group (k : ℚ) (id : Nat) (g : List RetrievedChunk)
    (dict : List (Nat × RetrievedChunk × ℚ)) :
    lookup_score id (score_group k g dict)
      = lookup_score id dict + rank_contributions k id g :=
  lookup_fold k id _ dict

/-- Helper: folding all groups accumulates every per-group contribution. -/
theorem lookup_rrf_scores_aux (k : ℚ) (id : Nat) :
    ∀ (gs : List (Nat × List RetrievedChunk)) (dict : List (Nat × RetrievedChunk × ℚ)),
      lookup_score id (gs.foldl (fun d p => score_group k p.2 d) dict)
        = lookup_score id dict + (gs.map (fun p => rank_contributions k id p.2)).sum := by
  intro gs
  induction gs with
  | nil => intro dict; simp
  | cons g rest ih =>
    intro dict
    simp only [List.foldl_cons, List.map_cons, List.sum_cons]
    rw [ih, lookup_score_group]
    ring

/-- C2: the fused score of every chunk id equals the sum over collection
groups of 1 / (k + rank), with ranks assigned from one by descending
similarity within each group and contributions accumulated across
collections by chunk id; in the concrete scenario with the default k of 60,
the chunk ranked 1st and 3rd receives 1/61 + 1/63, more than the 1/61 of a
chunk ranked 1st in a single collection. -/
theorem rrf_fusion_scores :
    (∀ (k : ℚ) (chunks : List RetrievedChunk) (id : Nat),
        lookup_score id (rrf_scores k chunks)
          = ((group_by_collection chunks).map (fun p => rank_contributions k id p.2)).sum)
      ∧ lookup_score 10 (rrf_scores rrf_k c2_demo) = 1/61 + 1/63
      ∧ lookup_score 20 (rrf_scores rrf_k c2_demo) = 1/61
      ∧ (1/61 + 1/63 : ℚ) > 1/61 := by
  refine ⟨?_,
    by norm_num [rrf_scores, group_by_collection, c2_demo, add_to_group, score_group,
      sort_desc, insert_desc, bump_score, lookup_score, rrf_k, List.enum, List.enumFrom],
    by norm_num [rrf_scores, group_by_collection, c2_demo, add_to_group, score_group,
      sort_desc, insert_desc, bump_score, lookup_score, rrf_k, List.enum, List.enumFrom],
    by norm_num⟩
  intro k chunks id
  have h := lookup_rrf_scores_aux k id (group_by_collection chunks) []
  simpa [rrf_scores, lookup_score] using h

/-- C3: every trace of the streaming RAG generator ends in exactly one
terminal event, a done on success or a single error on the first unhandled
failure, and no event of any kind follows the terminal event. -/
theorem streaming_terminal_exclusivity :
    ∀ (k : ℚ) (maxTokens : Int) (query : String) (embedOutcome : Except String Unit)
      (searchOutcome : Except String (List RetrievedChunk))
      (llmChunks : List String) (llmFailure : Option String),
      ∃ pre t,
        process_streaming_rag_request k maxTokens query embedOutcome searchOutcome
            llmChunks llmFailure = pre ++ [t]
          ∧ is_terminal t = true
          ∧ ∀ x ∈ pre, is_terminal x = false := by
  intro k maxTokens query embedOutcome searchOutcome llmChunks llmFailure
  cases embedOutcome with
  | error e =>
    refine ⟨[.status "generating_embedding"], .error e, rfl, rfl, ?_⟩
    simp [is_terminal]
  | ok u =>
    cases searchOutcome with
    | error e =>
      refine ⟨[.status "generating_embedding", .status "searching_vectors"], .error e,
        rfl, rfl, ?_⟩
      simp [is_terminal]
    | ok chunks =>
      cases llmFailure with
      | some e =>
        refine ⟨[.status "generating_embedding", .status "searching_vectors",
            .status "merging_context"]
          ++ (merge_contexts k chunks query maxTokens).selected_chunks.map
              (fun c => .source c.chunk_id)
          ++ ([.status "generating_response"] ++ llmChunks.map .content),
          .error e, ?_, rfl, ?_⟩
        · simp [process_streaming_rag_request, List.append_assoc]
        · intro x hx
          cases x <;> try rfl
          all_goals simp at hx
      | none =>
        refine ⟨[.status "generating_embedding", .status "searching_vectors",
            .status "merging_context"]
          ++ (merge_contexts k chunks query maxTokens).selected_chunks.map
              (fun c => .source c.chunk_id)
          ++ ([.status "generating_response"] ++ llmChunks.map .content
              ++ [.metadata]),
          .done, ?_, rfl, ?_⟩
        · simp [process_streaming_rag_request, List.append_assoc]
        · intro x hx
          cases x <;> try rfl
          all_goals simp at hx

/-- C5: the final recorded file status is independent of the vector-storage
outcome; with extraction, chunking and persistence successful the file is
recorded processed even when vector storage fails; failed is recorded on an
unsuccessful extraction, or on an exception in a step outside the
vector-storage block. -/
theorem pipeline_vector_failure_still_processed :
    (∀ (found : Bool) (ext : Except String String) (ch db v1 v2 : Except String Unit),
        process_file_pipeline found ext ch db v1 = process_file_pipeline found ext ch db v2)
      ∧ (∀ (t : String) (msg : String),
          process_file_pipeline true (.ok t) (.ok ()) (.ok ()) (.error msg)
            = some .processed)
      ∧ (∀ (msg : String) (ch db v : Except String Unit),
          process_file_pipeline true (.error msg) ch db v = some .failed)
      ∧ (∀ (t : String) (msg : String) (v : Except String Unit),
          process_file_pipeline true (.ok t) (.ok ()) (.error msg) v = some .failed)
      ∧ (∀ (t : String) (msg : String) (db v : Except String Unit),
          process_file_pipeline true (.ok t) (.error msg) db v = some .failed) := by
  refine ⟨?_, fun t msg => rfl, fun msg ch db v => ?_, fun t msg v => ?_, fun t msg db v => ?_⟩
  · intro found ext ch db v1 v2
    cases found <;> cases ext <;> cases ch <;> cases db <;> cases v1 <;> cases v2 <;> rfl
  · cases ch <;> cases db <;> cases v <;> rfl
  · cases v <;> rfl
  · cases db <;> cases v <;> rfl

/-- Helper: collections whose search call fails contribute nothing to the
gathered results. -/
theorem gather_results_filter (searchFn : Nat → Except String (List VectorSearchResult)) :
    ∀ (ids : List Nat) (acc : List VectorSearchResult),
      gather_results searchFn ids acc
        = gather_results searchFn (ids.filter (fun i => except_ok (searchFn i))) acc := by
  intro ids
  induction ids with
  | nil => intro acc; rfl
  | cons cid rest ih =>
    intro acc
    cases hcid : searchFn cid with
    | ok rs =>
      have hf : (cid :: rest).filter (fun i => except_ok (searchFn i))
          = cid :: rest.filter (fun i => except_ok (searchFn i)) := by
        simp [List.filter_cons, hcid, except_ok]
      rw [hf]
      simp only [gather_results, hcid]
      exact ih _
    | error e =>
      have hf : (cid :: rest).filter (fun i => except_ok (searchFn i))
          = rest.filter (fun i => except_ok (searchFn i)) := by
        simp [List.filter_cons, hcid, except_ok]
      rw [hf]
      simp only [gather_results, hcid]
      exact ih _

/-- C7 amended: FileVectorService.search_across_collections gives a failing
collection an empty contribution and returns exactly what the search over
the non-failing collections returns. -/
theorem search_across_collections_skips_failures :
    ∀ (searchFn : Nat → Except String (List VectorSearchResult))
      (ids : List Nat) (limit : Nat),
      search_across_collections searchFn ids limit
        = search_across_collections searchFn
            (ids.filter (fun i => except_ok (searchFn i))) limit := by
  intro searchFn ids limit
  simp only [search_across_collections]
  rw [gather_results_filter searchFn ids []]

/-- C7 counterexample: in RAGService.vector_search, which feeds fusion, one
failing collection makes the whole retrieval fail with that error, even
though the other collection has results. -/
theorem vector_search_propagates_collection_error :
    vector_search c7_fn [1, 2] = .error "connection refused"
      ∧ c7_fn 2 = .ok [⟨7, 7, "doc", 1⟩]
      ∧ vector_search c7_fn [2] = .ok [⟨7, 7, 2, "doc", 1, 1⟩] := by
  refine ⟨rfl, rfl, rfl⟩

/-- Helper: the success flag and embedding of each item of the individual
fallback agree with a direct embed_text call on the item text. -/
theorem embed_chunks_individually_values
    (oracle : List Char → Except String (List ℚ)) :
    ∀ texts : List (List Char),
      (embed_chunks_individually oracle texts).map (fun c => (c.success, c.embedding))
        = texts.map (fun t =>
            ((embed_text oracle t).success, (embed_text oracle t).embedding)) := by
  intro texts
  induction texts with
  | nil => rfl
  | cons t rest ih =>
    simp only [embed_chunks_individually, List.map_cons] at *
    rw [ih]
    cases h : generate_embedding oracle t <;> simp [embed_text, h]

/-- Helper: the individual fallback keeps the chunk texts in order. -/
theorem embed_chunks_individually_texts
    (oracle : List Char → Except String (List ℚ)) :
    ∀ texts : List (List Char),
      (embed_chunks_individually oracle texts).map (fun c => c.text) = texts := by
  intro texts
  induction texts with
  | nil => rfl
  | cons t rest ih =>
    simp only [embed_chunks_individually, List.map_cons] at *
    rw [ih]
    cases h : generate_embedding oracle t <;> simp [h]

/-- C6: when the batch embedding call fails, embed_chunks returns one record
per chunk, in order, whose success flags and embedding vectors equal those
of sequential embed_text calls on the chunk texts. -/
theorem batch_fallback_equivalence
    (oracle : List Char → Except String (List ℚ))
    (batchOracle : List (List Char) → Except String (List (List ℚ)))
    (texts : List (List Char)) (err : String)
    (h : generate_embeddings batchOracle texts = .error err) :
    (embed_chunks oracle batchOracle texts).map (fun c => (c.success, c.embedding))
      = texts.map (fun t =>
          ((embed_text oracle t).success, (embed_text oracle t).embedding))
    ∧ (embed_chunks oracle batchOracle texts).map (fun c => c.text) = texts
    ∧ (embed_chunks oracle batchOracle texts).length = texts.length := by
  have hne : texts ≠ [] := by
    intro he
    rw [he] at h
    simp [generate_embeddings] at h
  have hec : embed_chunks oracle batchOracle texts
      = embed_chunks_individually oracle texts := by
    simp only [embed_chunks, if_neg hne, h]
  rw [hec]
  refine ⟨embed_chunks_individually_values oracle texts,
    embed_chunks_individually_texts oracle texts, ?_⟩
  have := congrArg List.length (embed_chunks_individually_texts oracle texts)
  simpa using this

/-- C6 witness: three chunks against a batch oracle that always fails. -/
theorem batch_fallback_equivalence_witness :
    (embed_chunks demo_oracle demo_batch
        ["a".toList, "b".toList, "c".toList]).map (fun c => (c.success, c.embedding))
      = ["a".toList, "b".toList, "c".toList].map (fun t =>
          ((embed_text demo_oracle t).success, (embed_text demo_oracle t).embedding))
    ∧ (embed_chunks demo_oracle demo_batch
        ["a".toList, "b".toList, "c".toList]).map (fun c => c.text)
      = ["a".toList, "b".toList, "c".toList]
    ∧ (embed_chunks demo_oracle demo_batch
        ["a".toList, "b".toList, "c".toList]).length = 3 :=
  batch_fallback_equivalence demo_oracle demo_batch
    ["a".toList, "b".toList, "c".toList]
    "OpenAI batch embedding generation failed: service unavailable" (by rfl)

/-- Helper: the only error the validator produces is the empty-text one. -/
theorem validate_text_error (t : List Char) (e : String)
    (h : validate_text t = .error e) : e = "Text cannot be empty" := by
  by_cases hs : py_strip t = []
  · simp only [validate_text, if_pos hs, Except.error.injEq] at h
    exact h.symm
  · simp [validate_text, if_neg hs] at h

/-- Helper: every error message of generate_embedding is non-empty: either
the validator message or a wrapped provider message with a fixed prefix. -/
theorem generate_embedding_error_len (oracle : List Char → Except String (List ℚ))
    (t : List Char) (e : String)
    (h : generate_embedding oracle t = .error e) : 0 < e.length := by
  cases hv : validate_text t with
  | error ev =>
    have hg : generate_embedding oracle t = .error ev := by
      simp [generate_embedding, hv]
    rw [hg] at h
    simp only [Except.error.injEq] at h
    rw [← h, validate_text_error t ev hv]
    decide
  | ok v =>
    cases ho : oracle v with
    | ok emb =>
      have hg : generate_embedding oracle t = .ok emb := by
        simp [generate_embedding, hv, ho]
      rw [hg] at h
      simp at h
    | error msg =>
      have hg : generate_embedding oracle t
          = .error ("OpenAI embedding generation failed: " ++ msg) := by
        simp [generate_embedding, hv, ho]
      rw [hg] at h
      simp only [Except.error.injEq] at h
      rw [← h, String.length_append]
      have hp : 0 < "OpenAI embedding generation failed: ".length := by decide
      omega

/-- C10: embed_text always returns a record, with a successful embedding or
with success false, no embedding and a non-empty error; empty or
whitespace-only input yields exactly the validator rejection record; and
embed_chunks returns one record per input chunk. -/
theorem embed_text_never_raises :
    ∀ (oracle : List Char → Except String (List ℚ))
      (batchOracle : List (List Char) → Except String (List (List ℚ)))
      (t : List Char) (texts : List (List Char)),
      (((embed_text oracle t).success = true ∧ (embed_text oracle t).error = none
          ∧ ∃ v, (embed_text oracle t).embedding = some v)
        ∨ ((embed_text oracle t).success = false
          ∧ (embed_text oracle t).embedding = none
          ∧ ∃ e, (embed_text oracle t).error = some e ∧ 0 < e.length))
      ∧ (py_strip t = [] →
          embed_text oracle t
            = ⟨none, "text-embedding-3-small", t.length, false,
               some "Text cannot be empty"⟩)
      ∧ (embed_chunks oracle batchOracle texts).length = texts.length := by
  intro oracle batchOracle t texts
  refine ⟨?_, ?_, ?_⟩
  · cases h : generate_embedding oracle t with
    | ok emb =>
      left
      simp [embed_text, h]
    | error e =>
      right
      refine ⟨by simp [embed_text, h], by simp [embed_text, h],
        e, by simp [embed_text, h], generate_embedding_error_len oracle t e h⟩
  · intro hs
    have hv : validate_text t = .error "Text cannot be empty" := by
      simp [validate_text, hs]
    simp [embed_text, generate_embedding, hv]
  · by_cases he : texts = []
    · subst he; rfl
    · simp only [embed_chunks, if_neg he]
      cases hg : generate_embeddings batchOracle texts with
      | ok embs =>
        by_cases hl : texts.length ≤ embs.length
        · simp [hl, List.length_zip]
        · simp only [if_neg hl]
          have := congrArg List.length (embed_chunks_individually_texts oracle texts)
          simpa using this
      | error e =>
        have := congrArg List.length (embed_chunks_individually_texts oracle texts)
        simpa using this

/-- C10 witness: whitespace-only input gives the rejection record and
embed_chunks preserves the count on a concrete input. -/
theorem embed_text_never_raises_witness :
    embed_text demo_oracle (" ".toList)
        = ⟨none, "text-embedding-3-small", (" ".toList).length, false,
           some "Text cannot be empty"⟩
      ∧ (embed_chunks demo_oracle demo_batch ["a".toList]).length = 1 :=
  ⟨(embed_text_never_raises demo_oracle demo_batch (" ".toList) ["a".toList]).2.1
      (by decide),
   (embed_text_never_raises demo_oracle demo_batch (" ".toList) ["a".toList]).2.2⟩
